import Mathlib

/-!
Verification of the Adaptive Reading and Mastery Engine of the joutatsu
repository.  Each Python function relevant to the claims is shallowly
embedded as an executable Lean definition: Python `str` values are
modelled as `List Char` (a sequence of Unicode code points), Python
`float` arithmetic is modelled exactly over `ℚ`, and database rows are
modelled as plain structures.  External HTTP services and the two
float-only primitives (`** 0.5` and `round(x, 3)`) are passed in as
explicit oracle parameters, so every theorem quantifying over them holds
for every possible behaviour of the external world.
-/

namespace Joutatsu

/-! ## Python string helpers -/

/-- The whitespace characters stripped by Python `str.strip()`
(the common ASCII whitespace plus NBSP and the ideographic space). -/
def PY_WHITESPACE : List Char :=
  [' ', '\t', '\n', '\x0d', '\x0b', '\x0c', ' ', '　']

def isPySpace (c : Char) : Bool := PY_WHITESPACE.contains c

/-- Python `str.strip()`: drop leading and trailing whitespace. -/
def pyStrip (l : List Char) : List Char :=
  ((l.dropWhile isPySpace).reverse.dropWhile isPySpace).reverse

/-! ## ContentService._chunk_text (content_service.py, lines 99-141) -/

/-- `ContentService.SENTENCE_ENDINGS`. -/
def SENTENCE_ENDINGS : List Char := ['。', '！', '？', '\n']

/-- The scanning loop of `_chunk_text` (lines 116-139): accumulate
characters into `current`; emit `current.strip()` when the accumulated
length reaches `max_size`, or when the character is a sentence ending and
the length is at least `max_size * 0.5` (for naturals,
`len ≥ max_size * 0.5  ↔  max_size ≤ 2 * len`); finally emit the strip
of the trailing accumulation when that strip is non-empty. -/
def chunkLoop (max_size : Nat) : List Char → List Char → List (List Char)
  | current, [] =>
      if (pyStrip current).isEmpty then [] else [pyStrip current]
  | current, c :: rest =>
      let cur := current ++ [c]
      if max_size ≤ cur.length ∨ (c ∈ SENTENCE_ENDINGS ∧ max_size ≤ 2 * cur.length) then
        pyStrip cur :: chunkLoop max_size [] rest
      else
        chunkLoop max_size cur rest

/-- `ContentService._chunk_text(text, max_size)`. -/
def chunk_text (text : List Char) (max_size : Nat) : List (List Char) :=
  if text.isEmpty then []
  else if text.length ≤ max_size then [text]
  else chunkLoop max_size [] text

/-! ## ScoringService and ProgressRepository
(scoring_service.py lines 42-60, progress_repo.py lines 40-72) -/

/-- The counter fields of the `VocabularyScore` row (models/progress.py).
The `last_seen` timestamp does not influence any claim and is omitted. -/
structure VocabularyScore where
  score : ℚ
  times_seen : Nat
  times_looked_up : Nat
  consecutive_correct : Nat
deriving DecidableEq

/-- A fresh `VocabularyScore` row: every field defaults to zero. -/
def freshScore : VocabularyScore := ⟨0, 0, 0, 0⟩

def CONSECUTIVE_BONUS : ℚ := 2 / 100

def MAX_CONSECUTIVE_BONUS : ℚ := 10 / 100

/-- `ScoringService.calculate_score` (lines 42-60). -/
def calculate_score (s : VocabularyScore) : ℚ :=
  if s.times_seen = 0 then 0
  else
    let lookupRat : ℚ := (s.times_looked_up : ℚ) / (s.times_seen : ℚ)
    let base_score : ℚ := 1 - lookupRat
    let consecutive_bonus : ℚ :=
      min ((s.consecutive_correct : ℚ) * CONSECUTIVE_BONUS) MAX_CONSECUTIVE_BONUS
    let sc := base_score * (7 / 10) + (base_score + consecutive_bonus) * (3 / 10)
    max 0 (min 1 sc)

/-- `ProgressRepository.increment_seen` (lines 40-48), counter part. -/
def increment_seen (s : VocabularyScore) : VocabularyScore :=
  { s with times_seen := s.times_seen + 1 }

/-- `ProgressRepository.increment_lookup` (lines 50-61), counter part. -/
def increment_lookup (s : VocabularyScore) : VocabularyScore :=
  { s with
      times_looked_up := s.times_looked_up + 1
      times_seen := s.times_seen + 1
      consecutive_correct := 0 }

/-- `ProgressRepository.increment_correct` (lines 63-72), counter part. -/
def increment_correct (s : VocabularyScore) : VocabularyScore :=
  { s with
      times_seen := s.times_seen + 1
      consecutive_correct := s.consecutive_correct + 1 }

/-- The three counter-mutating repository events. -/
inductive ProgressEvent
  | seen
  | lookup
  | correct
deriving DecidableEq

def applyEvent (s : VocabularyScore) : ProgressEvent → VocabularyScore
  | .seen => increment_seen s
  | .lookup => increment_lookup s
  | .correct => increment_correct s

def applyEvents (s : VocabularyScore) (evs : List ProgressEvent) : VocabularyScore :=
  evs.foldl applyEvent s

/-! ## ProficiencyService._calculate_level
(proficiency_service.py lines 44-50 and 105-110) -/

inductive ProficiencyLevel
  | BEGINNER
  | ELEMENTARY
  | INTERMEDIATE
  | UPPER_INTERMEDIATE
  | ADVANCED
deriving DecidableEq

/-- `ProficiencyService.LOOKUP_THRESHOLDS`, in the dict's insertion
order, which is the iteration order of the Python loop. -/
def LOOKUP_THRESHOLDS : List (ProficiencyLevel × ℚ) :=
  [(.ADVANCED, 2), (.UPPER_INTERMEDIATE, 5), (.INTERMEDIATE, 10),
   (.ELEMENTARY, 20), (.BEGINNER, 100)]

/-- `ProficiencyService._calculate_level`: first threshold the rate is
below wins; fall through to BEGINNER. -/
def calculate_level (lookup_rate : ℚ) : ProficiencyLevel :=
  match LOOKUP_THRESHOLDS.find? (fun p => decide (lookup_rate < p.2)) with
  | some p => p.1
  | none => .BEGINNER

/-- Numeric height of a proficiency level (BEGINNER lowest). -/
def levelRank : ProficiencyLevel → Nat
  | .BEGINNER => 0
  | .ELEMENTARY => 1
  | .INTERMEDIATE => 2
  | .UPPER_INTERMEDIATE => 3
  | .ADVANCED => 4

/-! ## TokenizerService (tokenizer_service.py lines 18-29 and 103-174) -/

/-- The `Token` dataclass.  Python's `end` field is named `endPos`
because `end` is a Lean keyword. -/
structure Token where
  surface : String
  dictionary_form : String
  reading : String
  pos : List String
  pos_short : String
  start : Nat
  endPos : Nat
  is_known : Bool
deriving DecidableEq

/-- A token that starts a merge: short POS is verb, adjective, or
auxiliary verb (line 125). -/
def isAnchor (t : Token) : Bool :=
  t.pos_short == "動詞" || t.pos_short == "形容詞" || t.pos_short == "助動詞"

/-- A token the inner loop absorbs: an auxiliary verb (`mergeable_pos`,
line 116), or a て/で surface whose short POS is particle (lines 141-144). -/
def isMergeable (t : Token) : Bool :=
  t.pos_short == "助動詞" ||
    ((t.surface == "て" || t.surface == "で") && t.pos_short == "助詞")

/-- The token built at lines 154-165: surfaces and readings concatenated
in order, dictionary form / POS / start from the anchor, end from the
last absorbed token (`merged_end` starts at the anchor's end, so the
default for an empty absorption is the anchor itself). -/
def mergedToken (anchor : Token) (absorbed : List Token) : Token :=
  { surface := anchor.surface ++ String.join (absorbed.map (fun t => t.surface))
    dictionary_form := anchor.dictionary_form
    reading := anchor.reading ++ String.join (absorbed.map (fun t => t.reading))
    pos := anchor.pos
    pos_short := anchor.pos_short
    start := anchor.start
    endPos := (absorbed.getLastD anchor).endPos
    is_known := anchor.is_known }

/-- `TokenizerService._merge_conjugations` (lines 103-174).  The inner
`while` at lines 132-150 absorbs the maximal `isMergeable` prefix of the
remainder; when something was absorbed (`j > i + 1`) the merged token is
emitted and scanning resumes after the absorbed run, otherwise the
current token passes through unchanged. -/
def merge_conjugations : List Token → List Token
  | [] => []
  | t :: rest =>
      if isAnchor t then
        let absorbed := rest.takeWhile isMergeable
        if absorbed.isEmpty then
          t :: merge_conjugations rest
        else
          mergedToken t absorbed :: merge_conjugations (rest.dropWhile isMergeable)
      else
        t :: merge_conjugations rest
  termination_by l => l.length
  decreasing_by
    · simp
    · simp only [List.length_cons]
      have h : (rest.dropWhile isMergeable).length ≤ rest.length :=
        (List.dropWhile_suffix isMergeable).length_le
      omega
    · simp

/-- The `merge_conjugations` flag of `tokenize` (lines 98-99): the merge
pass runs only when enabled. -/
def merge (tokens : List Token) (enabled : Bool) : List Token :=
  if enabled then merge_conjugations tokens else tokens

/-- Spans are ordered and pairwise disjoint starting from lower bound
`lo`: each token satisfies `lo ≤ start ≤ end` and the bound advances to
its end, so the half-open spans `[start, end)` are orderly and disjoint. -/
def spansOkFrom (lo : Nat) : List Token → Bool
  | [] => true
  | t :: rest => (decide (lo ≤ t.start) && decide (t.start ≤ t.endPos))
      && spansOkFrom t.endPos rest

/-- Spans of a token list are ordered and pairwise disjoint. -/
def spansOk (l : List Token) : Bool := spansOkFrom 0 l

/-- End position of the last token of a list, or `e` when empty. -/
def lastEnd (e : Nat) : List Token → Nat
  | [] => e
  | t :: rest => lastEnd t.endPos rest

/-! ## DifficultyAnalysisService (difficulty_service.py) -/

/-- The kanji range of `_extract_kanji` (line 239): U+4E00 to U+9FAF. -/
def isKanji (c : Char) : Bool := 0x4e00 ≤ c.toNat && c.toNat ≤ 0x9faf

def isHiragana (c : Char) : Bool := 0x3040 ≤ c.toNat && c.toNat ≤ 0x309f

def isKatakana (c : Char) : Bool := 0x30a0 ≤ c.toNat && c.toNat ≤ 0x30ff

/-- `_extract_kanji` (lines 237-239). -/
def extract_kanji (text : List Char) : List Char := text.filter isKanji

/-- The word class of the `re.findall` at line 169: kanji, hiragana, or
katakana. -/
def isJaWordChar (c : Char) : Bool := isKanji c || isHiragana c || isKatakana c

/-- Maximal runs of characters satisfying `p`, as matched by
`re.findall("[class]+", text)`. -/
def runsOf (p : Char → Bool) : List Char → List (List Char)
  | [] => []
  | c :: rest =>
      if p c then (c :: rest.takeWhile p) :: runsOf p (rest.dropWhile p)
      else runsOf p rest
  termination_by l => l.length
  decreasing_by
    · simp only [List.length_cons]
      have h : (rest.dropWhile p).length ≤ rest.length :=
        (List.dropWhile_suffix p).length_le
      omega
    · simp

/-- Number of non-overlapping matches found by `re.findall` for a
pattern that is an alternation of literal strings: at each position the
first alternative that matches is taken and the scan resumes after it,
otherwise the scan advances one character.  Every alternative used below
is non-empty, so consuming a match consumes at least one character. -/
def findallCount (alts : List (List Char)) : List Char → Nat
  | [] => 0
  | c :: rest =>
      match alts.find? (fun a => a.isPrefixOf (c :: rest)) with
      | some a => 1 + findallCount alts (rest.drop (a.length - 1))
      | none => findallCount alts rest
  termination_by l => l.length
  decreasing_by
    · simp only [List.length_cons, List.length_drop]
      omega
    · simp

/-- The grammar pattern table of `_compute_grammar_complexity`
(lines 192-203); each regex is an alternation of literals. -/
def grammarPatterns : List (List (List Char) × ℚ) :=
  [(["ている".toList, "ていた".toList, "ていない".toList], 2 / 10),
   (["てしまう".toList, "ちゃう".toList, "てしまった".toList], 3 / 10),
   (["ようにする".toList, "ことにする".toList], 4 / 10),
   (["かもしれない".toList, "に違いない".toList], 4 / 10),
   (["ばかり".toList, "ところ".toList, "ばかりだ".toList], 5 / 10),
   (["させる".toList, "させられる".toList], 6 / 10),
   (["べき".toList, "はず".toList, "わけ".toList], 5 / 10),
   (["によって".toList, "において".toList, "に対して".toList], 6 / 10),
   (["にもかかわらず".toList, "ものの".toList], 7 / 10),
   (["つつある".toList, "ざるを得ない".toList], 8 / 10)]

/-- One iteration of the pattern loop of `_compute_grammar_complexity`
(lines 205-209): accumulate `score * matches` and the match total when
the pattern matched at least once. -/
def grammarStep (text : List Char) (acc : ℚ × Nat) (p : List (List Char) × ℚ) :
    ℚ × Nat :=
  let matchCount := findallCount p.1 text
  if 0 < matchCount then (acc.1 + p.2 * matchCount, acc.2 + matchCount) else acc

/-- The accumulation loop of `_compute_grammar_complexity`
(lines 205-209). -/
def grammarScan (text : List Char) : ℚ × Nat :=
  grammarPatterns.foldl (grammarStep text) (0, 0)

/-- `_compute_grammar_complexity` (lines 186-214). -/
def compute_grammar_complexity (text : List Char) : ℚ :=
  let s := grammarScan text
  if s.2 = 0 then 3 / 10
  else min 1 (s.1 / ((s.2 : ℚ) * (5 / 10)))

/-- Split on the delimiter characters of `_split_sentences` (line 244).
The source splits on runs (`[。！？\n]+`); splitting on single
occurrences only adds empty pieces, which the strip-and-filter removes. -/
def splitAux (delims : List Char) : List Char → List Char → List (List Char)
  | acc, [] => [acc.reverse]
  | acc, c :: rest =>
      if c ∈ delims then acc.reverse :: splitAux delims [] rest
      else splitAux delims (c :: acc) rest

/-- `_split_sentences` (lines 241-245): split, strip each piece, keep the
non-empty ones. -/
def split_sentences (text : List Char) : List (List Char) :=
  ((splitAux SENTENCE_ENDINGS [] text).map pyStrip).filter
    (fun s => !s.isEmpty)

/-- `_avg_sentence_length` (lines 247-252). -/
def avg_sentence_length (text : List Char) : ℚ :=
  let sentences := split_sentences text
  if sentences.isEmpty then 0
  else ((sentences.map (fun s => (s.length : ℚ))).sum) / (sentences.length : ℚ)

/-- `_compute_sentence_complexity` (lines 216-235).  The square root in
`variance ** 0.5` is a float-only primitive and is passed in as the
oracle `sqrtFn`. -/
def compute_sentence_complexity (sqrtFn : ℚ → ℚ) (text : List Char) : ℚ :=
  let sentences := split_sentences text
  if sentences.isEmpty then 0
  else
    let lengths : List ℚ := sentences.map (fun s => (s.length : ℚ))
    let avg_length := lengths.sum / (lengths.length : ℚ)
    let variance := (lengths.map (fun l => (l - avg_length) ^ 2)).sum / (lengths.length : ℚ)
    let std_dev := sqrtFn variance
    let length_score := min 1 (max 0 ((avg_length - 10) / 70))
    let variance_score := min (3 / 10) (std_dev / 50)
    min 1 (length_score + variance_score)

/-- `_estimate_difficulty_from_chars` (lines 254-265).  The katakana
count computed by the source is unused there and is omitted. -/
def estimate_difficulty_from_chars (text : List Char) : ℚ :=
  if text.length = 0 then 0
  else
    let kanji := (extract_kanji text).length
    let kanjiRat : ℚ := (kanji : ℚ) / (text.length : ℚ)
    min 1 (kanjiRat * 2)

/-- Outcome of one call into the jReadability library: the library may be
missing (`unavailable`), `compute_readability` may raise (`failed`), or
it returns a score. -/
inductive JReadResult
  | unavailable
  | failed
  | score (value : ℚ)

/-- `_compute_overall_difficulty` (lines 92-113): an available,
successful readability score is clamped and inverted; a missing library
or a raised exception falls back to the character heuristic. -/
def compute_overall_difficulty (jread : List Char → JReadResult)
    (text : List Char) : ℚ :=
  match jread text with
  | .score v => 1 - min 1 (max 0 v)
  | _ => estimate_difficulty_from_chars text

/-- Outcome of one kanjiapi.dev request for a character: HTTP 200 with an
optional `grade` field (absent and JSON-null collapse to `none`), or a
non-200 status / raised exception (`failed`). -/
inductive KanjiApiResult
  | ok (grade : Option Nat)
  | failed

/-- The response handling of `_get_kanji_grade` (lines 130-151): a 200
response with a missing or null grade yields 9 (uncommon kanji); a
failed lookup falls through to the default 5 (middle difficulty).  The
per-character cache only memoises this value and is not modelled. -/
def get_kanji_grade (api : Char → KanjiApiResult) (kanji : Char) : Nat :=
  match api kanji with
  | .ok (some g) => g
  | .ok none => 9
  | .failed => 5

/-- `_compute_kanji_difficulty` (lines 115-128): average grade of the
distinct kanji, divided by 10, capped at 1. -/
def compute_kanji_difficulty (api : Char → KanjiApiResult)
    (text : List Char) : ℚ :=
  let kanji_chars := extract_kanji text
  if kanji_chars.isEmpty then 0
  else
    let distinct := kanji_chars.dedup
    let total_grade := (distinct.map (fun k => (get_kanji_grade api k : ℚ))).sum
    let avg_grade := total_grade / (distinct.length : ℚ)
    min 1 (avg_grade / 10)

/-- `_compute_lexical_difficulty` (lines 153-184).  `wordfreq` is `none`
when the library is unavailable (fixed 0.5); otherwise it gives each
word's frequency. -/
def compute_lexical_difficulty (wordfreq : Option (List Char → ℚ))
    (text : List Char) : ℚ :=
  match wordfreq with
  | none => 5 / 10
  | some freqOf =>
      let words := runsOf isJaWordChar text
      if words.isEmpty then 0
      else
        let diffs := words.map (fun w =>
          let f := freqOf w
          if 0 < f then 1 - min 1 ((f + 1 / 10000) * 100) else 9 / 10)
        diffs.sum / (words.length : ℚ)

/-- `DifficultyAnalysisService.LEVEL_THRESHOLDS` (lines 46-52). -/
def LEVEL_THRESHOLDS : List (ℚ × String) :=
  [(2 / 10, "Beginner"), (4 / 10, "Elementary"), (6 / 10, "Intermediate"),
   (8 / 10, "Advanced"), (1, "Expert")]

/-- `_get_difficulty_level` (lines 267-272). -/
def get_difficulty_level (score : ℚ) : String :=
  match LEVEL_THRESHOLDS.find? (fun p => decide (score ≤ p.1)) with
  | some p => p.2
  | none => "Expert"

/-- The `DifficultyMetrics` dataclass (lines 10-25). -/
structure DifficultyMetrics where
  overall_difficulty : ℚ
  kanji_difficulty : ℚ
  lexical_difficulty : ℚ
  grammar_complexity : ℚ
  sentence_complexity : ℚ
  difficulty_level : String
  total_characters : Nat
  kanji_count : Nat
  unique_kanji : Nat
  avg_sentence_length : ℚ
deriving DecidableEq

/-- `_empty_metrics` (lines 274-287). -/
def empty_metrics : DifficultyMetrics :=
  { overall_difficulty := 0
    kanji_difficulty := 0
    lexical_difficulty := 0
    grammar_complexity := 0
    sentence_complexity := 0
    difficulty_level := "Beginner"
    total_characters := 0
    kanji_count := 0
    unique_kanji := 0
    avg_sentence_length := 0 }

/-- The external collaborators of the difficulty estimator, plus the two
float-only primitives (`** 0.5` and Python `round(x, 3)`) modelled as
oracles. -/
structure DifficultyServices where
  jread : List Char → JReadResult
  kanjiApi : Char → KanjiApiResult
  wordfreq : Option (List Char → ℚ)
  sqrtFn : ℚ → ℚ
  round3 : ℚ → ℚ

/-- `analyze_text` (lines 60-90): whitespace-only input short-circuits to
the empty metrics; otherwise the five dimension scores are computed, the
categorical level is taken from their unrounded average, and the
reported dimension scores are rounded to three decimals. -/
def analyze_text (svc : DifficultyServices) (text : List Char) : DifficultyMetrics :=
  if (pyStrip text).isEmpty then empty_metrics
  else
    let overall := compute_overall_difficulty svc.jread text
    let kanji := compute_kanji_difficulty svc.kanjiApi text
    let lexical := compute_lexical_difficulty svc.wordfreq text
    let grammar := compute_grammar_complexity text
    let sentence := compute_sentence_complexity svc.sqrtFn text
    let avg_difficulty := (overall + kanji + lexical + grammar + sentence) / 5
    let level := get_difficulty_level avg_difficulty
    let kanji_chars := extract_kanji text
    { overall_difficulty := svc.round3 overall
      kanji_difficulty := svc.round3 kanji
      lexical_difficulty := svc.round3 lexical
      grammar_complexity := svc.round3 grammar
      sentence_complexity := svc.round3 sentence
      difficulty_level := level
      total_characters := text.length
      kanji_count := kanji_chars.length
      unique_kanji := kanji_chars.dedup.length
      avg_sentence_length := avg_sentence_length text }

/-! ## Content matching (spec-modelled) -/

/-- The fields of a stored `Content` row relevant to matching
(models/content.py), together with its ordered chunks. -/
structure ContentItem where
  id : Nat
  difficulty_estimate : ℚ
  chunks : List String
deriving DecidableEq

/-- One fold step keeping whichever candidate lies nearer the target
difficulty, the earlier one winning ties. -/
def betterOf (target : ℚ) (best : Option ContentItem) (c : ContentItem) :
    Option ContentItem :=
  match best with
  | none => some c
  | some b =>
      if |c.difficulty_estimate - target| < |b.difficulty_estimate - target| then some c
      else some b

/-- The stored content available for matching: everything except the
excluded id. -/
def availableContent (excludeId : Option Nat) (items : List ContentItem) :
    List ContentItem :=
  items.filter (fun c => excludeId != some c.id)

/-- Modelled from the spec: `ContentService.get_reading_practice` is
called by the `/practice` route (api/routes/content.py lines 154-203)
but its definition is absent from the source tree.  Per the spec,
`recommendContent(targetDifficulty, excludeId?)` is a nearest-difficulty
match: it selects, among stored content excluding the given id, the item
minimizing `|content.difficulty - target|`, returning it (together with
one of its chunks; the chunk is chosen at random and is not modelled). -/
def recommendContent (target : ℚ) (excludeId : Option Nat)
    (items : List ContentItem) : Option ContentItem :=
  (availableContent excludeId items).foldl (betterOf target) none

/-! ## Theorems -/

/-- Claim C2, counterexample: on the two-character text `" a"` (length 2,
within a max_chunk_size of 5) `_chunk_text` returns the single chunk
`" a"` — the raw input — which differs from the whitespace-trimmed input
`"a"`, so the single chunk is not the trimmed text as claimed. -/
theorem chunk_text_short_untrimmed_cex :
    chunk_text [' ', 'a'] 5 = [[' ', 'a']] ∧
    chunk_text [' ', 'a'] 5 ≠ [pyStrip [' ', 'a']] := by
  decide

/-- Claim C2 (amended): for every non-empty text whose length is at most
max_chunk_size, `_chunk_text` returns exactly one chunk, and that chunk
is the input text itself, not whitespace-trimmed. -/
theorem chunk_text_short_spec (text : List Char) (max_size : Nat)
    (hne : text ≠ []) (hlen : text.length ≤ max_size) :
    chunk_text text max_size = [text] := by
  simp [chunk_text, List.isEmpty_iff, hne, hlen]

/-- Witness for the amended Claim C2 at the concrete input `"あ"`, 3. -/
theorem chunk_text_short_spec_witness :
    chunk_text ['あ'] 3 = [['あ']] :=
  chunk_text_short_spec ['あ'] 3 (by decide) (by decide)

/-- Claim C3, failing input: `_chunk_text` on the non-empty text
`"\n\n\n"` with max_chunk_size 2 emits three empty chunks, because each
newline is a sentence ending that triggers a boundary while the
accumulated run is pure whitespace, and the mid-scan emission (line 132)
appends `current_chunk.strip()` without the non-emptiness guard that
protects the trailing chunk (line 138). -/
theorem chunk_text_empty_chunks_bug :
    chunk_text ['\n', '\n', '\n'] 2 = [[], [], []] := by
  decide

/-- Claim C4: for counters with `times_seen > 0`, `calculate_score`
returns `clamp(base*0.7 + (base+bonus)*0.3, 0, 1)` with
`base = 1 - times_looked_up/times_seen` and
`bonus = min(consecutive_correct*0.02, 0.10)`; for `times_seen = 0` the
score is 0; and the counters (10, 2, 3) score exactly 0.818. -/
theorem calculate_score_spec (s : VocabularyScore) :
    (0 < s.times_seen →
      calculate_score s =
        max 0 (min 1
          ((1 - (s.times_looked_up : ℚ) / (s.times_seen : ℚ)) * (7 / 10) +
            ((1 - (s.times_looked_up : ℚ) / (s.times_seen : ℚ)) +
              min ((s.consecutive_correct : ℚ) * (2 / 100)) (10 / 100)) * (3 / 10)))) ∧
    (s.times_seen = 0 → calculate_score s = 0) ∧
    calculate_score ⟨0, 10, 2, 3⟩ = 818 / 1000 := by
  refine ⟨fun h => ?_, fun h => ?_,
    by norm_num [calculate_score, CONSECUTIVE_BONUS, MAX_CONSECUTIVE_BONUS]⟩
  · unfold calculate_score
    rw [if_neg (by omega)]
    simp only [CONSECUTIVE_BONUS, MAX_CONSECUTIVE_BONUS]
  · unfold calculate_score
    rw [if_pos h]

/-- Witness for Claim C4 at the scenario counters (seen 10, looked up 2,
streak 3). -/
theorem calculate_score_spec_witness :
    calculate_score ⟨0, 10, 2, 3⟩ =
      max 0 (min 1
        ((1 - ((2 : ℕ) : ℚ) / ((10 : ℕ) : ℚ)) * (7 / 10) +
          ((1 - ((2 : ℕ) : ℚ) / ((10 : ℕ) : ℚ)) +
            min (((3 : ℕ) : ℚ) * (2 / 100)) (10 / 100)) * (3 / 10))) :=
  (calculate_score_spec ⟨0, 10, 2, 3⟩).1 (by decide)

/-- Each repository event preserves `times_looked_up ≤ times_seen`:
`increment_seen` and `increment_correct` raise only `times_seen`, and
`increment_lookup` raises both counters together. -/
theorem applyEvent_preserves_le (s : VocabularyScore) (e : ProgressEvent)
    (h : s.times_looked_up ≤ s.times_seen) :
    (applyEvent s e).times_looked_up ≤ (applyEvent s e).times_seen := by
  cases e <;>
    simp [applyEvent, increment_seen, increment_lookup, increment_correct] <;>
    omega

/-- Claim C5: starting from a fresh `VocabularyScore` (all counters 0),
`times_looked_up ≤ times_seen` holds after every sequence of
`increment_seen`, `increment_lookup` and `increment_correct` events. -/
theorem progress_invariant_looked_le_seen (evs : List ProgressEvent) :
    (applyEvents freshScore evs).times_looked_up ≤
      (applyEvents freshScore evs).times_seen := by
  have h : ∀ s : VocabularyScore, s.times_looked_up ≤ s.times_seen →
      (applyEvents s evs).times_looked_up ≤ (applyEvents s evs).times_seen := by
    induction evs with
    | nil => intro s hs; simpa [applyEvents] using hs
    | cons e rest ih =>
        intro s hs
        simpa [applyEvents, List.foldl_cons] using
          ih (applyEvent s e) (applyEvent_preserves_le s e hs)
  exact h freshScore le_rfl

/-- Claim C8, counterexample: when the grade lookup itself fails (network
error or non-200 status), `_get_kanji_grade` returns the default 5
("middle difficulty", line 150), not the hardest ordinary grade 9 that
the claim asserts for every unknown-grade character. -/
theorem get_kanji_grade_failed_cex :
    get_kanji_grade (fun _ => KanjiApiResult.failed) '食' = 5 ∧
    get_kanji_grade (fun _ => KanjiApiResult.failed) '食' ≠ 9 := by
  exact ⟨rfl, by decide⟩

/-- Claim C8 (amended): a kanji the service reports without a grade (a
200 response whose `grade` field is absent or null) is assigned the
hardest ordinary grade 9 (uncommon kanji); a kanji whose lookup fails
(error or non-200 response) is instead assigned the middle-difficulty
default 5. -/
theorem get_kanji_grade_defaults (api : Char → KanjiApiResult) (c : Char) :
    (api c = KanjiApiResult.ok none → get_kanji_grade api c = 9) ∧
    (api c = KanjiApiResult.failed → get_kanji_grade api c = 5) := by
  constructor <;> intro h <;> simp [get_kanji_grade, h]

/-- Witness for the amended Claim C8 at a concrete no-grade response. -/
theorem get_kanji_grade_defaults_witness :
    get_kanji_grade (fun _ => KanjiApiResult.ok none) '水' = 9 :=
  (get_kanji_grade_defaults (fun _ => KanjiApiResult.ok none) '水').1 rfl

/-- The threshold-table scan of `_calculate_level` unfolds to the
expected first-match-wins chain of comparisons. -/
theorem calculate_level_eq_ifchain (r : ℚ) :
    calculate_level r =
      if r < 2 then .ADVANCED
      else if r < 5 then .UPPER_INTERMEDIATE
      else if r < 10 then .INTERMEDIATE
      else if r < 20 then .ELEMENTARY
      else .BEGINNER := by
  by_cases h1 : r < 2 <;> by_cases h2 : r < 5 <;> by_cases h3 : r < 10 <;>
    by_cases h4 : r < 20 <;> by_cases h5 : r < 100 <;>
    simp [calculate_level, LOOKUP_THRESHOLDS, List.find?, h1, h2, h3, h4, h5]

/-- Claim C7: the level chosen by `_calculate_level` is monotonically
non-increasing in the lookup rate — a lower rate yields the same or a
higher level, under the fixed band table evaluated top-down. -/
theorem calculate_level_antitone (r1 r2 : ℚ) (h : r1 ≤ r2) :
    levelRank (calculate_level r2) ≤ levelRank (calculate_level r1) := by
  rw [calculate_level_eq_ifchain, calculate_level_eq_ifchain]
  split_ifs <;> simp only [levelRank] <;> first | omega | linarith

/-- Witness for Claim C7 at the concrete rates 1 ≤ 7. -/
theorem calculate_level_antitone_witness :
    levelRank (calculate_level 7) ≤ levelRank (calculate_level 1) :=
  calculate_level_antitone 1 7 (by norm_num)

/-- Every weight in the grammar pattern table is at least 0.2. -/
theorem grammarPatterns_weight_lb : ∀ p ∈ grammarPatterns, (2 : ℚ) / 10 ≤ p.2 := by
  norm_num [grammarPatterns]

/-- Invariant of the grammar accumulation loop: the weighted sum is at
least 0.2 times the match total, since every weight is at least 0.2. -/
theorem grammarScan_lower_bound (text : List Char) :
    ((grammarScan text).2 : ℚ) * (2 / 10) ≤ (grammarScan text).1 := by
  have key : ∀ (ps : List (List (List Char) × ℚ)) (a : ℚ) (n : Nat),
      (∀ p ∈ ps, (2 : ℚ) / 10 ≤ p.2) → (n : ℚ) * (2 / 10) ≤ a →
      ((ps.foldl (grammarStep text) (a, n)).2 : ℚ) * (2 / 10) ≤
        (ps.foldl (grammarStep text) (a, n)).1 := by
    intro ps
    induction ps with
    | nil => intro a n _ ha; simpa using ha
    | cons p rest ih =>
        intro a n hw ha
        rw [List.foldl_cons]
        have hp := hw p (List.mem_cons_self p rest)
        have hrest : ∀ q ∈ rest, (2 : ℚ) / 10 ≤ q.2 :=
          fun q hq => hw q (List.mem_cons_of_mem p hq)
        by_cases hm : 0 < findallCount p.1 text
        · have hstep : grammarStep text (a, n) p =
              (a + p.2 * (findallCount p.1 text : ℚ), n + findallCount p.1 text) := by
            simp [grammarStep, hm]
          rw [hstep]
          refine ih _ _ hrest ?_
          push_cast
          have hcount : (0 : ℚ) ≤ (findallCount p.1 text : ℚ) := by positivity
          nlinarith
        · have hstep : grammarStep text (a, n) p = (a, n) := by
            simp [grammarStep, hm]
          rw [hstep]
          exact ih a n hrest ha
  simpa [grammarScan] using key grammarPatterns 0 0 grammarPatterns_weight_lb (by norm_num)

/-- Claim C10: `_compute_grammar_complexity` returns either exactly 0.3
(no pattern matched) or a value between 0.4 and 1.0 — no output lies
strictly between 0.3 and 0.4, because every pattern weight is at least
0.2 and the match-weighted average weight is divided by 0.5 and capped
at 1. -/
theorem grammar_complexity_range (text : List Char) :
    compute_grammar_complexity text = 3 / 10 ∨
      (2 / 5 ≤ compute_grammar_complexity text ∧
        compute_grammar_complexity text ≤ 1) := by
  unfold compute_grammar_complexity
  by_cases h : (grammarScan text).2 = 0
  · left
    simp [h]
  · right
    rw [if_neg h]
    have hlb := grammarScan_lower_bound text
    have hn : (0 : ℚ) < ((grammarScan text).2 : ℚ) := by
      exact_mod_cast Nat.pos_of_ne_zero h
    constructor
    · refine le_min (by norm_num) ?_
      rw [le_div_iff₀ (by positivity)]
      nlinarith
    · exact min_le_left 1 _

/-- Claim C9: for every text whose characters are all whitespace,
`analyze_text` short-circuits to the all-zero metrics with level
"Beginner".  The statement quantifies over every possible behaviour of
the external services, so the result is reached without consulting any
of them. -/
theorem analyze_text_whitespace_short_circuit (svc : DifficultyServices)
    (text : List Char) (h : ∀ c ∈ text, isPySpace c = true) :
    analyze_text svc text = empty_metrics := by
  have hdrop : text.dropWhile isPySpace = [] := List.dropWhile_eq_nil_iff.mpr h
  have hstrip : pyStrip text = [] := by
    simp [pyStrip, hdrop]
  simp [analyze_text, hstrip]

/-- Witness for Claim C9 at the single-space text with concrete trivial
services. -/
theorem analyze_text_whitespace_witness :
    analyze_text
      ⟨fun _ => JReadResult.unavailable, fun _ => KanjiApiResult.failed,
        none, id, id⟩ [' '] = empty_metrics :=
  analyze_text_whitespace_short_circuit _ [' '] (by decide)

/-- Merging never lengthens the token list. -/
theorem merge_conjugations_length (l : List Token) :
    (merge_conjugations l).length ≤ l.length := by
  induction l using merge_conjugations.induct with
  | case1 => simp [merge_conjugations]
  | case2 t rest ha absorbed habs ih =>
      have habs' : (rest.takeWhile isMergeable).isEmpty = true := habs
      rw [merge_conjugations, if_pos ha, if_pos habs']
      simp only [List.length_cons]
      omega
  | case3 t rest ha absorbed habs ih =>
      have habs' : ¬(rest.takeWhile isMergeable).isEmpty = true := habs
      rw [merge_conjugations, if_pos ha, if_neg habs']
      simp only [List.length_cons]
      have hd : (rest.dropWhile isMergeable).length ≤ rest.length :=
        (List.dropWhile_suffix isMergeable).length_le
      omega
  | case4 t rest ha ih =>
      rw [merge_conjugations, if_neg ha]
      simp only [List.length_cons]
      omega

/-- Splitting `spansOkFrom` across an append: the left part must be in
order from the bound, the right part from the left part's last end. -/
theorem spansOkFrom_append (e : Nat) (xs ys : List Token) :
    spansOkFrom e (xs ++ ys) =
      (spansOkFrom e xs && spansOkFrom (lastEnd e xs) ys) := by
  induction xs generalizing e with
  | nil => simp [spansOkFrom, lastEnd]
  | cons t rest ih =>
      simp [spansOkFrom, lastEnd, ih, Bool.and_assoc]

/-- The last end of an orderly run is at least the starting bound. -/
theorem le_lastEnd (xs : List Token) (e : Nat)
    (h : spansOkFrom e xs = true) : e ≤ lastEnd e xs := by
  induction xs generalizing e with
  | nil => simp [lastEnd]
  | cons t rest ih =>
      simp only [spansOkFrom, Bool.and_eq_true, decide_eq_true_eq] at h
      have := ih t.endPos h.2
      simp only [lastEnd]
      omega

/-- `getLastD` projected to end positions is `lastEnd`. -/
theorem getLastD_endPos (xs : List Token) (d : Token) :
    (xs.getLastD d).endPos = lastEnd d.endPos xs := by
  induction xs generalizing d with
  | nil => rfl
  | cons a as ih =>
      rw [List.getLastD_cons]
      simp only [lastEnd]
      exact ih a

/-- Merging preserves orderly, pairwise-disjoint spans, from any lower
bound. -/
theorem merge_conjugations_spansOkFrom (n : Nat) :
    ∀ l : List Token, l.length ≤ n → ∀ lo : Nat, spansOkFrom lo l = true →
      spansOkFrom lo (merge_conjugations l) = true := by
  induction n with
  | zero =>
      intro l hlen lo h
      have : l = [] := List.eq_nil_of_length_eq_zero (Nat.le_zero.mp hlen)
      subst this
      simpa [merge_conjugations] using h
  | succ n ih =>
      intro l hlen lo h
      match l with
      | [] => simpa [merge_conjugations] using h
      | t :: rest =>
          simp only [spansOkFrom, Bool.and_eq_true, decide_eq_true_eq] at h
          obtain ⟨⟨hlo, hse⟩, hrest⟩ := h
          have hlen' : rest.length ≤ n := by
            simp only [List.length_cons] at hlen; omega
          rw [merge_conjugations]
          by_cases ha : isAnchor t = true
          · rw [if_pos ha]
            by_cases habs : (rest.takeWhile isMergeable).isEmpty = true
            · rw [if_pos habs]
              simp only [spansOkFrom, Bool.and_eq_true, decide_eq_true_eq]
              exact ⟨⟨hlo, hse⟩, ih rest hlen' t.endPos hrest⟩
            · rw [if_neg habs]
              simp only [spansOkFrom, Bool.and_eq_true, decide_eq_true_eq]
              have hsplit := List.takeWhile_append_dropWhile isMergeable rest
              have hrest' : spansOkFrom t.endPos
                  (rest.takeWhile isMergeable ++ rest.dropWhile isMergeable) = true := by
                rw [hsplit]; exact hrest
              rw [spansOkFrom_append, Bool.and_eq_true] at hrest'
              obtain ⟨htake, hdrop⟩ := hrest'
              have hMend : (mergedToken t (rest.takeWhile isMergeable)).endPos =
                  lastEnd t.endPos (rest.takeWhile isMergeable) :=
                getLastD_endPos (rest.takeWhile isMergeable) t
              have hMstart : (mergedToken t (rest.takeWhile isMergeable)).start =
                  t.start := rfl
              have hlast := le_lastEnd (rest.takeWhile isMergeable) t.endPos htake
              have hdlen : (rest.dropWhile isMergeable).length ≤ n := by
                have := (List.dropWhile_suffix isMergeable (l := rest)).length_le
                omega
              refine ⟨⟨?_, ?_⟩, ?_⟩
              · rw [hMstart]; exact hlo
              · rw [hMstart, hMend]; omega
              · rw [hMend]
                exact ih (rest.dropWhile isMergeable) hdlen _ hdrop
          · rw [if_neg ha]
            simp only [spansOkFrom, Bool.and_eq_true, decide_eq_true_eq]
            exact ⟨⟨hlo, hse⟩, ih rest hlen' t.endPos hrest⟩

/-- Claim C6: with merging disabled the token list is returned
unchanged; with merging enabled, for every input whose spans are ordered
and pairwise disjoint the output is at most as long and its spans are
again ordered and pairwise disjoint; and whenever the scan sits on an
anchor that absorbs a non-empty run, the emitted token starts the
output, spans `[anchor.start, lastAbsorbed.end)`, and takes its
dictionary form and part-of-speech from the anchor. -/
theorem merge_conjugations_spec (tokens : List Token) :
    merge tokens false = tokens ∧
    (spansOk tokens = true →
      (merge tokens true).length ≤ tokens.length ∧
        spansOk (merge tokens true) = true) ∧
    (∀ t rest a as, tokens = t :: rest → isAnchor t = true →
      rest.takeWhile isMergeable = a :: as →
      ∃ ms, merge tokens true = mergedToken t (a :: as) :: ms ∧
        (mergedToken t (a :: as)).start = t.start ∧
        (mergedToken t (a :: as)).endPos = ((a :: as).getLastD t).endPos ∧
        (mergedToken t (a :: as)).dictionary_form = t.dictionary_form ∧
        (mergedToken t (a :: as)).pos = t.pos ∧
        (mergedToken t (a :: as)).pos_short = t.pos_short) := by
  refine ⟨rfl, fun h => ⟨?_, ?_⟩, ?_⟩
  · simpa [merge] using merge_conjugations_length tokens
  · have := merge_conjugations_spansOkFrom tokens.length tokens le_rfl 0 h
    simpa [merge, spansOk] using this
  · intro t rest a as htok hanchor habs
    subst htok
    refine ⟨merge_conjugations (rest.dropWhile isMergeable), ?_, rfl, ?_, rfl, rfl, rfl⟩
    · rw [merge, if_pos rfl, merge_conjugations]
      simp [hanchor, habs]
    · simp [mergedToken]

/-- Witness for Claim C6 on the concrete token stream for 食べました
(verb anchor 食べ followed by the auxiliaries まし and た). -/
theorem merge_conjugations_spec_witness :
    spansOk
      [⟨"食べ", "食べる", "タベ", ["動詞"], "動詞", 0, 2, false⟩,
       ⟨"まし", "ます", "マシ", ["助動詞"], "助動詞", 2, 4, false⟩,
       ⟨"た", "た", "タ", ["助動詞"], "助動詞", 4, 5, false⟩] = true ∧
    (merge
      [⟨"食べ", "食べる", "タベ", ["動詞"], "動詞", 0, 2, false⟩,
       ⟨"まし", "ます", "マシ", ["助動詞"], "助動詞", 2, 4, false⟩,
       ⟨"た", "た", "タ", ["助動詞"], "助動詞", 4, 5, false⟩] true).length ≤ 3 ∧
    spansOk (merge
      [⟨"食べ", "食べる", "タベ", ["動詞"], "動詞", 0, 2, false⟩,
       ⟨"まし", "ます", "マシ", ["助動詞"], "助動詞", 2, 4, false⟩,
       ⟨"た", "た", "タ", ["助動詞"], "助動詞", 4, 5, false⟩] true) = true :=
  ⟨by decide,
    (merge_conjugations_spec
      [⟨"食べ", "食べる", "タベ", ["動詞"], "動詞", 0, 2, false⟩,
       ⟨"まし", "ます", "マシ", ["助動詞"], "助動詞", 2, 4, false⟩,
       ⟨"た", "た", "タ", ["助動詞"], "助動詞", 4, 5, false⟩]).2.1 (by decide)⟩

/-- Folding `betterOf` from a seed yields an element of the seed or the
list that is nearest the target among all of them. -/
theorem foldl_betterOf (target : ℚ) (l : List ContentItem) :
    ∀ b : ContentItem,
      ∃ c, l.foldl (betterOf target) (some b) = some c ∧
        (c = b ∨ c ∈ l) ∧
        |c.difficulty_estimate - target| ≤ |b.difficulty_estimate - target| ∧
        ∀ d ∈ l, |c.difficulty_estimate - target| ≤ |d.difficulty_estimate - target| := by
  induction l with
  | nil =>
      intro b
      exact ⟨b, rfl, Or.inl rfl, le_rfl, by simp⟩
  | cons x xs ih =>
      intro b
      rw [List.foldl_cons]
      by_cases hx : |x.difficulty_estimate - target| < |b.difficulty_estimate - target|
      · have hstep : betterOf target (some b) x = some x := by
          simp [betterOf, hx]
        rw [hstep]
        obtain ⟨c, hc, hmem, hle, hall⟩ := ih x
        refine ⟨c, hc, ?_, hle.trans hx.le, ?_⟩
        · rcases hmem with h | h
          · exact Or.inr (h ▸ List.mem_cons_self x xs)
          · exact Or.inr (List.mem_cons_of_mem x h)
        · intro d hd
          rcases List.mem_cons.mp hd with h | h
          · exact h ▸ hle
          · exact hall d h
      · have hstep : betterOf target (some b) x = some b := by
          simp [betterOf, hx]
        rw [hstep]
        obtain ⟨c, hc, hmem, hle, hall⟩ := ih b
        refine ⟨c, hc, ?_, hle, ?_⟩
        · rcases hmem with h | h
          · exact Or.inl h
          · exact Or.inr (List.mem_cons_of_mem x h)
        · intro d hd
          rcases List.mem_cons.mp hd with h | h
          · exact h ▸ (hle.trans (not_lt.mp hx))
          · exact hall d h

/-- Claim C1: whenever some content remains after excluding the given
id, `recommendContent` (modelled from the spec, the implementation being
absent from the source tree) returns a content item among the available
ones whose `difficulty_estimate` minimizes the distance to the target;
in particular, with target 0.5 among difficulties 0.1, 0.45, 0.9 it
selects the 0.45 item. -/
theorem recommend_content_nearest (target : ℚ) (excludeId : Option Nat)
    (items : List ContentItem)
    (h : availableContent excludeId items ≠ []) :
    (∃ c, recommendContent target excludeId items = some c ∧
      c ∈ availableContent excludeId items ∧
      ∀ d ∈ availableContent excludeId items,
        |c.difficulty_estimate - target| ≤ |d.difficulty_estimate - target|) ∧
    recommendContent (1 / 2) none
        [⟨1, 1 / 10, []⟩, ⟨2, 45 / 100, []⟩, ⟨3, 9 / 10, []⟩] =
      some ⟨2, 45 / 100, []⟩ := by
  constructor
  · obtain ⟨a, as, heq⟩ := List.exists_cons_of_ne_nil h
    unfold recommendContent
    rw [heq, List.foldl_cons]
    have hseed : betterOf target none a = some a := rfl
    rw [hseed]
    obtain ⟨c, hc, hmem, hle, hall⟩ := foldl_betterOf target as a
    refine ⟨c, hc, ?_, ?_⟩
    · rcases hmem with hmem | hmem
      · exact hmem ▸ List.mem_cons_self a as
      · exact List.mem_cons_of_mem a hmem
    · intro d hd
      rcases List.mem_cons.mp hd with hd | hd
      · exact hd ▸ hle
      · exact hall d hd
  · have h21 : |(45 : ℚ) / 100 - 1 / 2| < |(1 : ℚ) / 10 - 1 / 2| := by
      have a1 : |(45 : ℚ) / 100 - 1 / 2| = 1 / 20 := by norm_num
      have a2 : |(1 : ℚ) / 10 - 1 / 2| = 2 / 5 := by norm_num
      rw [a1, a2]
      norm_num
    have h32 : ¬|(9 : ℚ) / 10 - 1 / 2| < |(45 : ℚ) / 100 - 1 / 2| := by
      have a1 : |(45 : ℚ) / 100 - 1 / 2| = 1 / 20 := by norm_num
      have a3 : |(9 : ℚ) / 10 - 1 / 2| = 2 / 5 := by norm_num
      rw [a1, a3]
      norm_num
    show List.foldl (betterOf (1 / 2)) none
        (availableContent none [⟨1, 1 / 10, []⟩, ⟨2, 45 / 100, []⟩, ⟨3, 9 / 10, []⟩]) =
      some ⟨2, 45 / 100, []⟩
    have hfil : availableContent none
        [⟨1, 1 / 10, []⟩, ⟨2, 45 / 100, []⟩, ⟨3, 9 / 10, []⟩] =
        [⟨1, 1 / 10, []⟩, ⟨2, 45 / 100, []⟩, ⟨3, 9 / 10, []⟩] := rfl
    rw [hfil, List.foldl_cons, List.foldl_cons, List.foldl_cons, List.foldl_nil]
    have s1 : betterOf (1 / 2) none (⟨1, 1 / 10, []⟩ : ContentItem) =
        some ⟨1, 1 / 10, []⟩ := rfl
    rw [s1]
    have s2 : betterOf (1 / 2) (some ⟨1, 1 / 10, []⟩) (⟨2, 45 / 100, []⟩ : ContentItem) =
        some ⟨2, 45 / 100, []⟩ := by
      simp only [betterOf]
      rw [if_pos h21]
    rw [s2]
    simp only [betterOf]
    rw [if_neg h32]

/-- Witness for Claim C1 at the spec scenario: target 0.5, no exclusion,
difficulties 0.1, 0.45, 0.9. -/
theorem recommend_content_nearest_witness :
    (∃ c, recommendContent (1 / 2) none
        [⟨1, 1 / 10, []⟩, ⟨2, 45 / 100, []⟩, ⟨3, 9 / 10, []⟩] = some c ∧
      c ∈ availableContent none
        [⟨1, 1 / 10, []⟩, ⟨2, 45 / 100, []⟩, ⟨3, 9 / 10, []⟩] ∧
      ∀ d ∈ availableContent none
          [⟨1, 1 / 10, []⟩, ⟨2, 45 / 100, []⟩, ⟨3, 9 / 10, []⟩],
        |c.difficulty_estimate - 1 / 2| ≤ |d.difficulty_estimate - 1 / 2|) ∧
    recommendContent (1 / 2) none
        [⟨1, 1 / 10, []⟩, ⟨2, 45 / 100, []⟩, ⟨3, 9 / 10, []⟩] =
      some ⟨2, 45 / 100, []⟩ :=
  recommend_content_nearest (1 / 2) none
    [⟨1, 1 / 10, []⟩, ⟨2, 45 / 100, []⟩, ⟨3, 9 / 10, []⟩] (by decide)

end Joutatsu
